import Mathlib

/-!
Shallow embedding of the WiFi history / reconnection core of the
DataReader-ESP32 firmware, covering `src/main/wifi_history.c` and the
station-disconnect handler of `src/main/wifi_manager.c`.

Machine integers are modelled as `Nat` (with explicit reductions modulo
`2^8` / `2^32` exactly where the C code stores into `uint8_t` / `uint32_t`
fields), C strings as `String`, byte arrays as `List Nat`, and nullable
pointer arguments as `Option`.  The `s_initialized` guard of the C module
is orthogonal to every property studied here, so the operations are
modelled in the initialized state.
-/

namespace DataReader

/-- Constant `WIFI_HISTORY_MAX_NETWORKS` from wifi_history.h. -/
def WIFI_HISTORY_MAX_NETWORKS : Nat := 10

/-- Constant `WIFI_HISTORY_SSID_MAX_LEN` from wifi_history.h. -/
def WIFI_HISTORY_SSID_MAX_LEN : Nat := 32

/-- Constant `WIFI_HISTORY_PASSWORD_MAX_LEN` from wifi_history.h. -/
def WIFI_HISTORY_PASSWORD_MAX_LEN : Nat := 64

/-- Reduction performed by a store into a C `uint8_t` field. -/
def U8 (n : Nat) : Nat := n % 256

/-- Reduction performed by C `uint32_t` arithmetic. -/
def U32 (n : Nat) : Nat := n % 4294967296

/-- Mirror of `wifi_history_entry_t` (wifi_history.h).  The default field
values are the all-zero bit pattern produced by `memset(entry, 0, ...)`. -/
structure NetworkEntry where
  ssid : String := ""
  password : String := ""
  bssid : List Nat := [0, 0, 0, 0, 0, 0]
  channel : Nat := 0
  authmode : Nat := 0
  rssi : Int := 0
  last_connected : Nat := 0
  connect_count : Nat := 0
  priority : Nat := 0
  is_valid : Bool := false
  deriving Repr, DecidableEq, Inhabited

/-- Mirror of `wifi_history_t` (wifi_history.h). -/
structure wifi_history_t where
  networks : List NetworkEntry
  count : Nat
  next_timestamp : Nat
  deriving Repr, DecidableEq, Inhabited

/-- Error codes returned by the wifi_history operations. -/
inductive EspErr where
  | ok
  | errInvalidState
  | errInvalidArg
  | errNotFound
  | errNoMem
  deriving Repr, DecidableEq, Inhabited

/-- Index of the first list element satisfying `p`, mirroring the C
search loops that return the first matching slot and -1 (here `none`)
when no slot matches. -/
def find_index (p : NetworkEntry → Bool) : List NetworkEntry → Option Nat
  | [] => none
  | e :: rest => if p e then some 0 else Option.map (· + 1) (find_index p rest)

/-- Mirror of `find_network_index` (wifi_history.c line 47): index of the
first valid record whose ssid matches, `none` for the C return value -1. -/
def find_network_index (networks : List NetworkEntry) (ssid : String) : Option Nat :=
  find_index (fun e => e.is_valid && e.ssid == ssid) networks

/-- Mirror of `find_empty_slot` (wifi_history.c line 63). -/
def find_empty_slot (networks : List NetworkEntry) : Option Nat :=
  find_index (fun e => !e.is_valid) networks

/-- One iteration of the loop body of `find_lowest_priority_slot`
(wifi_history.c lines 82-93); the accumulator carries
(lowest_index, lowest_priority, oldest_time). -/
def lowest_slot_step (networks : List NetworkEntry) (acc : Nat × Nat × Nat) (i : Nat) :
    Nat × Nat × Nat :=
  match networks.get? i with
  | none => acc
  | some e =>
    if !e.is_valid then acc
    else if e.priority < acc.2.1 ∨ (e.priority = acc.2.1 ∧ e.last_connected < acc.2.2) then
      (i, e.priority, e.last_connected)
    else acc

/-- Mirror of `find_lowest_priority_slot` (wifi_history.c line 76): starts
from slot 0 (unconditionally) and scans slots 1..N-1, keeping the valid
slot with the lowest priority, ties broken by the older `last_connected`. -/
def find_lowest_priority_slot (networks : List NetworkEntry) : Nat :=
  let init : Nat × Nat × Nat :=
    match networks.get? 0 with
    | some e => (0, e.priority, e.last_connected)
    | none => (0, 0, 0)
  (((List.range (WIFI_HISTORY_MAX_NETWORKS - 1)).map (· + 1)).foldl
    (lowest_slot_step networks) init).1

/-- Swap condition of the bubble sort (wifi_history.c lines 109-111):
true when slot j must move behind slot j+1. -/
def sort_out_of_order (a b : NetworkEntry) : Bool :=
  decide (a.priority < b.priority) ||
    (a.priority == b.priority && decide (a.last_connected < b.last_connected))

/-- Inner loop body of `sort_networks_by_priority` (wifi_history.c lines
105-117): compares slots j and j+1, skipping the pair when either slot is
invalid. -/
def sort_swap_at (l : List NetworkEntry) (j : Nat) : List NetworkEntry :=
  match l.get? j, l.get? (j + 1) with
  | some a, some b =>
    if !a.is_valid then l
    else if !b.is_valid then l
    else if sort_out_of_order a b then (l.set j b).set (j + 1) a
    else l
  | _, _ => l

/-- Mirror of `sort_networks_by_priority` (wifi_history.c line 100): bubble
sort with outer index i in 0..N-2 and inner index j in 0..N-2-i. -/
def sort_networks_by_priority (l : List NetworkEntry) : List NetworkEntry :=
  (List.range (WIFI_HISTORY_MAX_NETWORKS - 1)).foldl
    (fun acc i =>
      (List.range (WIFI_HISTORY_MAX_NETWORKS - 1 - i)).foldl sort_swap_at acc)
    l

/-- Record update performed by `wifi_history_update_success` on the matched
entry (wifi_history.c lines 253-264).  The C expression
`100 + (entry->connect_count - 1) * 10` is computed in `uint32_t`
arithmetic and then stored into the `uint8_t` field `priority`, hence the
explicit `U32`/`U8` reductions. -/
def update_success_entry (ts : Nat) (e : NetworkEntry) : NetworkEntry :=
  let e1 := { e with last_connected := ts, connect_count := U32 (e.connect_count + 1) }
  if 1 < e1.connect_count then
    { e1 with priority := U8 (U32 (100 + U32 (U32 (e1.connect_count - 1) * 10))) }
  else e1

/-- Replace the record at index `i` (no effect when out of range). -/
def modify_at (l : List NetworkEntry) (i : Nat) (f : NetworkEntry → NetworkEntry) :
    List NetworkEntry :=
  match l.get? i with
  | some e => l.set i (f e)
  | none => l

/-- Mirror of `wifi_history_update_success` (wifi_history.c line 236);
`ts` is the value of `get_timestamp()` and the NVS write-back is outside
the in-memory model. -/
def wifi_history_update_success (ts : Nat) (ssid : Option String) (h : wifi_history_t) :
    EspErr × wifi_history_t :=
  match ssid with
  | none => (EspErr.errInvalidArg, h)
  | some s =>
    match find_network_index h.networks s with
    | none => (EspErr.errNotFound, h)
    | some i =>
      let networks1 := modify_at h.networks i (update_success_entry ts)
      (EspErr.ok, { h with networks := sort_networks_by_priority networks1 })

/-- Update of an existing record in `wifi_history_add_network`
(wifi_history.c lines 182-196): password and bssid only when provided;
ssid, connect_count, priority and is_valid are untouched. -/
def update_existing_entry (ts : Nat) (password : Option String) (bssid : Option (List Nat))
    (channel authmode : Nat) (rssi : Int) (e : NetworkEntry) : NetworkEntry :=
  { e with
    password := password.getD e.password
    bssid := bssid.getD e.bssid
    channel := channel
    authmode := authmode
    rssi := rssi
    last_connected := ts }

/-- Fresh record built by `wifi_history_add_network` (wifi_history.c lines
210-227) after `memset(entry, 0, ...)`. -/
def new_entry (ts : Nat) (ssid : String) (password : Option String)
    (bssid : Option (List Nat)) (channel authmode : Nat) (rssi : Int) : NetworkEntry :=
  { ssid := ssid
    password := password.getD ""
    bssid := bssid.getD [0, 0, 0, 0, 0, 0]
    channel := channel
    authmode := authmode
    rssi := rssi
    last_connected := ts
    connect_count := 1
    priority := 100
    is_valid := true }

/-- Length check on an optional C string argument. -/
def password_too_long (password : Option String) : Bool :=
  match password with
  | none => false
  | some p => decide (WIFI_HISTORY_PASSWORD_MAX_LEN ≤ p.length)

/-- Mirror of `wifi_history_add_network` (wifi_history.c line 154). -/
def wifi_history_add_network (ts : Nat) (ssid : Option String) (password : Option String)
    (bssid : Option (List Nat)) (channel authmode : Nat) (rssi : Int)
    (h : wifi_history_t) : EspErr × wifi_history_t :=
  match ssid with
  | none => (EspErr.errInvalidArg, h)
  | some s =>
    if s.length = 0 then (EspErr.errInvalidArg, h)
    else if WIFI_HISTORY_SSID_MAX_LEN ≤ s.length then (EspErr.errInvalidArg, h)
    else if password_too_long password then (EspErr.errInvalidArg, h)
    else
      match find_network_index h.networks s with
      | some i =>
        (EspErr.ok,
          { h with networks :=
              modify_at h.networks i (update_existing_entry ts password bssid channel authmode rssi) })
      | none =>
        match find_empty_slot h.networks with
        | some i =>
          (EspErr.ok,
            { h with
              networks := h.networks.set i (new_entry ts s password bssid channel authmode rssi)
              count := U8 (h.count + 1) })
        | none =>
          let i := find_lowest_priority_slot h.networks
          (EspErr.ok,
            { h with networks := h.networks.set i (new_entry ts s password bssid channel authmode rssi) })

/-- Mirror of `wifi_history_get_networks` (wifi_history.c line 275): sorts
in place, then copies the valid records in slot order, up to the caller's
buffer size. -/
def wifi_history_get_networks (max_count : Nat) (h : wifi_history_t) :
    List NetworkEntry × wifi_history_t :=
  let sorted := sort_networks_by_priority h.networks
  ((sorted.filter (fun e => e.is_valid)).take max_count, { h with networks := sorted })

/-- Mirror of `wifi_history_remove_network` (wifi_history.c line 303):
`memset` of the slot and a `uint8_t` decrement of `count`. -/
def wifi_history_remove_network (ssid : Option String) (h : wifi_history_t) :
    EspErr × wifi_history_t :=
  match ssid with
  | none => (EspErr.errInvalidArg, h)
  | some s =>
    match find_network_index h.networks s with
    | none => (EspErr.errNotFound, h)
    | some i =>
      (EspErr.ok,
        { h with networks := h.networks.set i {}, count := U8 (h.count + 255) })

/-- Mirror of `wifi_history_clear_all` (wifi_history.c line 329). -/
def wifi_history_clear_all (_h : wifi_history_t) : EspErr × wifi_history_t :=
  (EspErr.ok,
    { networks := List.replicate WIFI_HISTORY_MAX_NETWORKS {}
      count := 0
      next_timestamp := 1 })

/-- Table state after `memset(&s_wifi_history, 0, ...)` in
`wifi_history_init` (wifi_history.c line 129), which is also the state
kept when the NVS load fails. -/
def empty_history : wifi_history_t :=
  { networks := List.replicate WIFI_HISTORY_MAX_NETWORKS {}
    count := 0
    next_timestamp := 0 }

/-- Mirror of `wifi_history_load` (wifi_history.c line 694).  The three
NVS reads are modelled by `Option` arguments: `blob` is the `networks`
key, `countKey` the `count` key, `tsKey` the `timestamp` key.  When the
blob read fails the function returns early with the table unchanged; when
only the `count` (resp. `timestamp`) key fails, `count` is forced to 0
(resp. `next_timestamp` to 1) regardless of the loaded records. -/
def wifi_history_load (blob : Option (List NetworkEntry)) (countKey : Option Nat)
    (tsKey : Option Nat) (h : wifi_history_t) : EspErr × wifi_history_t :=
  match blob with
  | none => (EspErr.errNotFound, h)
  | some nets =>
    (EspErr.ok,
      { networks := nets
        count := countKey.getD 0
        next_timestamp := tsKey.getD 1 })

/-- Mirror of one `wifi_ap_record_t` scan result, restricted to the
fields the selection code reads. -/
structure ApRecord where
  ssid : String := ""
  rssi : Int := 0
  bssid : List Nat := [0, 0, 0, 0, 0, 0]
  primary : Nat := 0
  deriving Repr, DecidableEq, Inhabited

/-- Inner loop of the selection in `wifi_history_auto_connect`
(wifi_history.c lines 522-544): the first scan entry whose ssid matches
the record and whose rssi exceeds the -85 dBm floor (a matching entry at
or below the floor does not stop the scan walk, exactly as in the C
loop, whose `break` sits inside the combined condition). -/
def find_viable_scan (scans : List ApRecord) (ssid : String) : Option ApRecord :=
  scans.find? (fun ap => ap.ssid == ssid && decide (ap.rssi > -85))

/-- Accumulator of the selection loop: `best_rssi`, `found_network`,
`best_network`, `best_ap_record` (wifi_history.c lines 512-515).  The C
`best_network`/`best_ap_record` start uninitialized; they are modelled by
`default`, which is never read before the first replacement because every
viable candidate has rssi > -85 > -100 = initial `best_rssi`. -/
structure BestState where
  best_rssi : Int := -100
  found_network : Bool := false
  best_network : NetworkEntry := default
  best_ap_record : ApRecord := default
  deriving Repr, DecidableEq, Inhabited

/-- Outer loop body of the selection in `wifi_history_auto_connect`
(wifi_history.c lines 518-546): a viable candidate replaces the current
best exactly when its rssi is strictly larger, or equal with a strictly
higher stored priority. -/
def auto_connect_step (scans : List ApRecord) (st : BestState) (e : NetworkEntry) :
    BestState :=
  if !e.is_valid then st
  else
    match find_viable_scan scans e.ssid with
    | none => st
    | some ap =>
      if ap.rssi > st.best_rssi ∨
          (ap.rssi = st.best_rssi ∧ e.priority > st.best_network.priority) then
        { best_rssi := ap.rssi, found_network := true, best_network := e, best_ap_record := ap }
      else st

/-- Selection phase of `wifi_history_auto_connect` (wifi_history.c lines
511-546), walking every history slot. -/
def auto_connect_select (networks : List NetworkEntry) (scans : List ApRecord) : BestState :=
  networks.foldl (auto_connect_step scans) {}

/-- Station-config fields set by the BSSID policy of
`wifi_history_auto_connect`. -/
structure StaConfig where
  bssid : List Nat := [0, 0, 0, 0, 0, 0]
  bssid_set : Bool := false
  deriving Repr, DecidableEq, Inhabited

/-- Mirror of the loop at wifi_history.c lines 571-577: true when some of
the 6 stored BSSID bytes is non-zero. -/
def has_valid_historical_bssid (bssid : List Nat) : Bool :=
  (List.range 6).any (fun k => bssid.getD k 0 != 0)

/-- Mirror of `memcmp(a, b, 6) == 0` on two 6-byte BSSID buffers. -/
def bssid6_eq (a b : List Nat) : Bool :=
  (List.range 6).all (fun k => a.getD k 0 == b.getD k 0)

/-- Mirror of the BSSID pinning decision of `wifi_history_auto_connect`
(wifi_history.c lines 570-601): pin to the scanned BSSID only when the
stored BSSID is non-zero and matches the scan entry byte for byte;
otherwise connect unpinned with a zeroed BSSID field. -/
def configure_bssid (best_network : NetworkEntry) (best_ap_record : ApRecord) : StaConfig :=
  if has_valid_historical_bssid best_network.bssid &&
      bssid6_eq best_network.bssid best_ap_record.bssid then
    { bssid := best_ap_record.bssid, bssid_set := true }
  else
    { bssid := [0, 0, 0, 0, 0, 0], bssid_set := false }

/-- Mirror of the dead-code helper `wifi_history_find_best_network`
(wifi_history.c line 344): walks the sorted table and returns the first
valid record matched by a scan entry with rssi > -80. -/
def wifi_history_find_best_network (networks : List NetworkEntry) (scans : List ApRecord) :
    Option NetworkEntry :=
  (sort_networks_by_priority networks).find? (fun e =>
    e.is_valid && scans.any (fun ap => ap.ssid == e.ssid && decide (ap.rssi > -80)))

/-- Constant `MAX_RETRY_COUNT` from wifi_manager.c. -/
def MAX_RETRY_COUNT : Nat := 5

/-- Disconnect reason code `WIFI_REASON_NO_AP_FOUND` of the vendor SDK. -/
def WIFI_REASON_NO_AP_FOUND : Nat := 201

/-- Disconnect reason code `WIFI_REASON_AUTH_FAIL` of the vendor SDK. -/
def WIFI_REASON_AUTH_FAIL : Nat := 202

/-- Disconnect reason code `WIFI_REASON_4WAY_HANDSHAKE_TIMEOUT` of the
vendor SDK. -/
def WIFI_REASON_4WAY_HANDSHAKE_TIMEOUT : Nat := 15

/-- Observable outcome of one `WIFI_EVENT_STA_DISCONNECTED` dispatch:
the retry counter `s_retry_num` afterwards, whether `esp_wifi_connect()`
was reissued, and whether the `connection_failed` flag was written to
the `wifi_state` NVS namespace. -/
structure DiscOutcome where
  retry : Nat
  connect_called : Bool
  saved_failed_flag : Bool
  deriving Repr, DecidableEq, Inhabited

/-- Mirror of the `WIFI_EVENT_STA_DISCONNECTED` branch of
`wifi_event_handler` (wifi_manager.c lines 71-148).  `bssid_set` is the
`sta.bssid_set` flag of the configuration returned by
`esp_wifi_get_config`, and `retry` the value of `s_retry_num` when the
event arrives. -/
def sta_disconnected_handler (reason : Nat) (bssid_set : Bool) (retry : Nat) : DiscOutcome :=
  if reason = WIFI_REASON_NO_AP_FOUND then
    if bssid_set ∧ retry < 2 then
      { retry := retry + 1, connect_called := true, saved_failed_flag := false }
    else
      { retry := MAX_RETRY_COUNT, connect_called := false, saved_failed_flag := false }
  else if reason = WIFI_REASON_AUTH_FAIL ∨ reason = WIFI_REASON_4WAY_HANDSHAKE_TIMEOUT then
    { retry := MAX_RETRY_COUNT, connect_called := false, saved_failed_flag := false }
  else if retry < MAX_RETRY_COUNT then
    { retry := retry + 1, connect_called := true, saved_failed_flag := false }
  else
    { retry := retry, connect_called := false, saved_failed_flag := true }

/-- Trace of `n` consecutive `WIFI_EVENT_STA_DISCONNECTED` events with a
fixed reason, starting from retry counter `retry`; returns the final
retry counter and the number of `esp_wifi_connect()` calls issued. -/
def disconnect_trace (reason : Nat) (retry : Nat) : Nat → Nat × Nat
  | 0 => (retry, 0)
  | n + 1 =>
    let o := sta_disconnected_handler reason false retry
    let rest := disconnect_trace reason o.retry n
    (rest.1, (if o.connect_called then 1 else 0) + rest.2)

/-- One in-memory mutation of the table: the effect of
`wifi_history_add_network`, `wifi_history_remove_network` or
`wifi_history_clear_all`. -/
inductive HistoryOp where
  | add (ts : Nat) (ssid password : Option String) (bssid : Option (List Nat))
      (channel authmode : Nat) (rssi : Int)
  | remove (ssid : Option String)
  | clear
  deriving Repr, DecidableEq

/-- Apply one mutation to the in-memory table. -/
def apply_op (h : wifi_history_t) : HistoryOp → wifi_history_t
  | .add ts ssid password bssid channel authmode rssi =>
    (wifi_history_add_network ts ssid password bssid channel authmode rssi h).2
  | .remove ssid => (wifi_history_remove_network ssid h).2
  | .clear => (wifi_history_clear_all h).2

/-- Apply a sequence of mutations, oldest first. -/
def apply_ops (h : wifi_history_t) (ops : List HistoryOp) : wifi_history_t :=
  ops.foldl apply_op h

/-- Number of records whose validity flag is set. -/
def count_valid (l : List NetworkEntry) : Nat :=
  (l.filter (fun e => e.is_valid)).length

/-- Consistency of the `count` field: the table has its fixed 10 slots
and `count` equals the number of valid records. -/
def CountInvariant (h : wifi_history_t) : Prop :=
  h.networks.length = WIFI_HISTORY_MAX_NETWORKS ∧ h.count = count_valid h.networks

instance : DecidablePred CountInvariant := fun h => by
  unfold CountInvariant
  infer_instance

/-- Names of the valid records, in slot order. -/
def valid_ssids (l : List NetworkEntry) : List String :=
  (l.filter (fun e => e.is_valid)).map (fun e => e.ssid)

/-- No two valid records share a name. -/
def UniqueValidNames (l : List NetworkEntry) : Prop :=
  (valid_ssids l).Nodup

instance : DecidablePred UniqueValidNames := fun l => by
  unfold UniqueValidNames
  infer_instance

/-- Concrete record after 16 successful connections: `connect_count` 16,
priority 100 + 15 * 10 = 250. -/
def c1_entry : NetworkEntry :=
  { ssid := "home", connect_count := 16, priority := 250, is_valid := true }

/-- Concrete table holding `c1_entry` in slot 0. -/
def c1_table : wifi_history_t :=
  { networks := c1_entry :: List.replicate 9 {}, count := 1, next_timestamp := 0 }

/-- Record A of the ordering scenario: priority 100, timestamp 5. -/
def c6_A : NetworkEntry :=
  { ssid := "A", priority := 100, last_connected := 5, is_valid := true }

/-- Record B of the ordering scenario: priority 150, timestamp 1. -/
def c6_B : NetworkEntry :=
  { ssid := "B", priority := 150, last_connected := 1, is_valid := true }

/-- Concrete table whose valid records A and B are separated by a
tombstoned slot (slot 1), as left behind by a `remove` of the record that
used to sit between them. -/
def c6_table : wifi_history_t :=
  { networks := c6_A :: ({} : NetworkEntry) :: c6_B :: List.replicate 7 {}
    count := 2
    next_timestamp := 0 }

/-- Concrete remembered network used for boundary scenarios. -/
def c3_record : NetworkEntry :=
  { ssid := "net", password := "pw", priority := 120, is_valid := true }

/-- Concrete table holding only `c3_record`. -/
def c3_nets : List NetworkEntry :=
  c3_record :: List.replicate 9 {}

/-- Scan entry for `c3_record` observed at exactly -85 dBm. -/
def c3_ap_85 : ApRecord := { ssid := "net", rssi := -85 }

/-- Scan entry for `c3_record` observed at -84 dBm. -/
def c3_ap_84 : ApRecord := { ssid := "net", rssi := -84 }

/-- Full table of 10 valid records with priorities 100..109. -/
def c5_nets : List NetworkEntry :=
  (List.range WIFI_HISTORY_MAX_NETWORKS).map
    (fun i => { ssid := "n", priority := 100 + i, is_valid := true })

/-- Concrete table whose slot 0 holds a valid record named "home". -/
def c4_table : wifi_history_t :=
  { networks := { ssid := "home", priority := 100, is_valid := true } :: List.replicate 9 {}
    count := 1
    next_timestamp := 0 }

/-- The pair (e, ap) is one of the candidates the selection loop of
`wifi_history_auto_connect` considers: a valid history record together
with the first viable (rssi > -85) scan entry carrying its ssid. -/
def SelectionCandidate (networks : List NetworkEntry) (scans : List ApRecord)
    (e : NetworkEntry) (ap : ApRecord) : Prop :=
  e ∈ networks ∧ e.is_valid = true ∧ find_viable_scan scans e.ssid = some ap

/-- The selection state beats the candidate (e, ap): the candidate's
signal is no stronger, and on equal signal its stored priority is no
higher. -/
def Dominates (st : BestState) (e : NetworkEntry) (ap : ApRecord) : Prop :=
  ap.rssi ≤ st.best_rssi ∧ (ap.rssi = st.best_rssi → e.priority ≤ st.best_network.priority)

/-- Preorder in which the selection state only ever improves: the best
signal never drops, and on unchanged best signal the stored priority of
the best record never drops. -/
def bstate_le (s t : BestState) : Prop :=
  s.best_rssi ≤ t.best_rssi ∧
    (s.best_rssi = t.best_rssi → s.best_network.priority ≤ t.best_network.priority)

/-- Well-formed accumulator of the lowest-slot scan: the tracked lowest
priority and oldest time are those of the record in the tracked slot. -/
def LowestAcc (networks : List NetworkEntry) (acc : Nat × Nat × Nat) : Prop :=
  ∃ e, networks.get? acc.1 = some e ∧ acc.2.1 = e.priority ∧ acc.2.2 = e.last_connected

/-- Lexicographic order on (priority, last_connected) pairs used by the
eviction policy: lower priority first, older timestamp on ties. -/
def pair_le (p q : Nat × Nat) : Prop :=
  p.1 < q.1 ∨ (p.1 = q.1 ∧ p.2 ≤ q.2)

/-!  Theorems. -/

/-- C1: the claim says `recordSuccess` recomputes priority as
`100 + (successCount - 1) * 10` saturating at 255 and never decreasing.
On the code the store into the `uint8_t` field wraps instead: the record
of `c1_table` has 16 successes and priority 250, and the 17th successful
connection sets its priority to (100 + 16 * 10) mod 256 = 4, far below
both 255 and the previous 250.  This contradicts the saturation and the
monotonicity asserted by the spec (and intended by the commented-out
clamp at wifi_history.c lines 260-263). -/
theorem claim_C1_seventeenth_success_wraps_priority :
    (wifi_history_update_success 1000 (some "home") c1_table).1 = EspErr.ok ∧
    ((wifi_history_update_success 1000 (some "home") c1_table).2.networks.get? 0).map
        (fun e => e.priority) = some 4 ∧
    ((wifi_history_update_success 1000 (some "home") c1_table).2.networks.get? 0).map
        (fun e => e.connect_count) = some 17 ∧
    c1_entry.priority = 250 := by
  decide

/-- C6: the claim says `list()` returns the valid records in descending
(priority, lastConnected) order for every table, including tables whose
valid records are interleaved with tombstoned slots.  On the code the
bubble sort skips every comparison that touches an invalid slot, so the
tombstone in slot 1 of `c6_table` prevents record A (priority 100) from
ever being compared with record B (priority 150): `list()` returns A
before B, an ascending order. -/
theorem claim_C6_tombstone_blocks_sorting :
    (wifi_history_get_networks 10 c6_table).1 = [c6_A, c6_B] ∧
    c6_A.priority < c6_B.priority := by
  decide

/-- C8: a single `WIFI_EVENT_STA_DISCONNECTED` whose reason is
`WIFI_REASON_AUTH_FAIL` or `WIFI_REASON_4WAY_HANDSHAKE_TIMEOUT` sets the
retry counter to its maximum and issues no reconnect call, and once the
counter is at the maximum no disconnect event of any kind issues a
further reconnect call. -/
theorem claim_C8_auth_failure_exhausts_immediately (reason retry : Nat) (bssid_set : Bool)
    (hreason : reason = WIFI_REASON_AUTH_FAIL ∨ reason = WIFI_REASON_4WAY_HANDSHAKE_TIMEOUT) :
    (sta_disconnected_handler reason bssid_set retry).retry = MAX_RETRY_COUNT ∧
    (sta_disconnected_handler reason bssid_set retry).connect_called = false ∧
    ∀ r2 b2, (sta_disconnected_handler r2 b2 MAX_RETRY_COUNT).connect_called = false := by
  refine ⟨?_, ?_, ?_⟩
  · rcases hreason with h | h <;> subst h <;>
      simp [sta_disconnected_handler, WIFI_REASON_AUTH_FAIL, WIFI_REASON_NO_AP_FOUND,
        WIFI_REASON_4WAY_HANDSHAKE_TIMEOUT]
  · rcases hreason with h | h <;> subst h <;>
      simp [sta_disconnected_handler, WIFI_REASON_AUTH_FAIL, WIFI_REASON_NO_AP_FOUND,
        WIFI_REASON_4WAY_HANDSHAKE_TIMEOUT]
  · intro r2 b2
    unfold sta_disconnected_handler MAX_RETRY_COUNT
    split
    · split <;> simp_all
    · split
      · rfl
      · split <;> simp_all

/-- Witness for C8 at the concrete reason code 202 (`AUTH_FAIL`) arriving
with retry counter 0 and no BSSID pin. -/
theorem claim_C8_witness :
    (sta_disconnected_handler 202 false 0).retry = MAX_RETRY_COUNT ∧
    (sta_disconnected_handler 202 false 0).connect_called = false ∧
    (sta_disconnected_handler 1 true MAX_RETRY_COUNT).connect_called = false :=
  ⟨(claim_C8_auth_failure_exhausts_immediately 202 0 false (Or.inl rfl)).1,
   (claim_C8_auth_failure_exhausts_immediately 202 0 false (Or.inl rfl)).2.1,
   (claim_C8_auth_failure_exhausts_immediately 202 0 false (Or.inl rfl)).2.2 1 true⟩

/-- Behaviour of the disconnect handler on a generic reason (neither
AP-not-found nor an authentication/handshake failure): reconnect and
bump the counter while it is below the maximum, otherwise do nothing but
persist the `connection_failed` flag. -/
theorem sta_disconnected_generic_eq (reason : Nat)
    (hgen : reason ≠ WIFI_REASON_NO_AP_FOUND ∧ reason ≠ WIFI_REASON_AUTH_FAIL ∧
      reason ≠ WIFI_REASON_4WAY_HANDSHAKE_TIMEOUT) (b : Bool) (r : Nat) :
    sta_disconnected_handler reason b r =
      if r < MAX_RETRY_COUNT then
        { retry := r + 1, connect_called := true, saved_failed_flag := false }
      else
        { retry := r, connect_called := false, saved_failed_flag := true } := by
  obtain ⟨h1, h2, h3⟩ := hgen
  unfold sta_disconnected_handler
  rw [if_neg h1, if_neg (not_or.mpr ⟨h2, h3⟩)]

/-- Closed form of a run of generic disconnect events: starting from a
counter r ≤ 5, after n events the counter is min (r + n) 5 and
min n (5 - r) reconnect calls were issued. -/
theorem disconnect_trace_generic (reason : Nat)
    (hgen : reason ≠ WIFI_REASON_NO_AP_FOUND ∧ reason ≠ WIFI_REASON_AUTH_FAIL ∧
      reason ≠ WIFI_REASON_4WAY_HANDSHAKE_TIMEOUT) :
    ∀ (n r : Nat), r ≤ MAX_RETRY_COUNT →
      disconnect_trace reason r n =
        (min (r + n) MAX_RETRY_COUNT, min n (MAX_RETRY_COUNT - r)) := by
  intro n
  induction n with
  | zero =>
    intro r hr
    simp [disconnect_trace, Nat.min_eq_left hr]
  | succ n ih =>
    intro r hr
    show
      (let o := sta_disconnected_handler reason false r
       let rest := disconnect_trace reason o.retry n
       ((rest.1, (if o.connect_called then 1 else 0) + rest.2) : Nat × Nat)) = _
    rw [sta_disconnected_generic_eq reason ⟨hgen.1, hgen.2.1, hgen.2.2⟩ false r]
    by_cases hlt : r < MAX_RETRY_COUNT
    · rw [if_pos hlt]
      simp only [ih (r + 1) hlt]
      unfold MAX_RETRY_COUNT at hlt ⊢
      refine Prod.ext ?_ ?_ <;> simp <;> omega
    · rw [if_neg hlt]
      simp only [ih r hr]
      unfold MAX_RETRY_COUNT at hlt hr ⊢
      refine Prod.ext ?_ ?_ <;> simp <;> omega

/-- C9: starting with a zero retry counter, a run of n generic-reason
disconnect events reissues exactly min n 5 connect calls (one per event
while the counter is below the maximum of 5) and leaves the counter at
min n 5; once the counter has reached the maximum, a further generic
disconnect event issues no connect call and persists the
`connection_failed` flag to the `wifi_state` NVS namespace. -/
theorem claim_C9_generic_disconnects_retry_five_times (reason n : Nat)
    (hgen : reason ≠ WIFI_REASON_NO_AP_FOUND ∧ reason ≠ WIFI_REASON_AUTH_FAIL ∧
      reason ≠ WIFI_REASON_4WAY_HANDSHAKE_TIMEOUT) :
    (disconnect_trace reason 0 n).2 = min n 5 ∧
    (disconnect_trace reason 0 n).1 = min n 5 ∧
    (sta_disconnected_handler reason false MAX_RETRY_COUNT).connect_called = false ∧
    (sta_disconnected_handler reason false MAX_RETRY_COUNT).saved_failed_flag = true := by
  have htrace := disconnect_trace_generic reason hgen n 0 (by simp [MAX_RETRY_COUNT])
  have hstep := sta_disconnected_generic_eq reason hgen false MAX_RETRY_COUNT
  rw [if_neg (lt_irrefl MAX_RETRY_COUNT)] at hstep
  refine ⟨?_, ?_, ?_, ?_⟩
  · rw [htrace]
    simp [MAX_RETRY_COUNT]
  · rw [htrace]
    simp [MAX_RETRY_COUNT]
  · rw [hstep]
  · rw [hstep]

/-- Witness for C9: reason code 1 (`WIFI_REASON_UNSPECIFIED`) injected 7
times from a zero counter issues exactly 5 connect calls, and the next
event persists the failure flag without reconnecting. -/
theorem claim_C9_witness :
    (disconnect_trace 1 0 7).2 = min 7 5 ∧
    (disconnect_trace 1 0 7).1 = min 7 5 ∧
    (sta_disconnected_handler 1 false MAX_RETRY_COUNT).connect_called = false ∧
    (sta_disconnected_handler 1 false MAX_RETRY_COUNT).saved_failed_flag = true :=
  claim_C9_generic_disconnects_retry_five_times 1 7 (by decide)

/-- Characterization of the non-zero-BSSID loop. -/
theorem has_valid_historical_bssid_iff (l : List Nat) :
    has_valid_historical_bssid l = true ↔ ∃ k < 6, l.getD k 0 ≠ 0 := by
  simp [has_valid_historical_bssid, List.any_eq_true, List.mem_range]

/-- Characterization of the 6-byte `memcmp` equality. -/
theorem bssid6_eq_iff (a b : List Nat) :
    bssid6_eq a b = true ↔ ∀ k < 6, a.getD k 0 = b.getD k 0 := by
  simp [bssid6_eq, List.all_eq_true, List.mem_range]

/-- Value of the `bssid_set` flag chosen by the pinning policy. -/
theorem configure_bssid_set_eq (e : NetworkEntry) (ap : ApRecord) :
    (configure_bssid e ap).bssid_set =
      (has_valid_historical_bssid e.bssid && bssid6_eq e.bssid ap.bssid) := by
  unfold configure_bssid
  by_cases h : (has_valid_historical_bssid e.bssid && bssid6_eq e.bssid ap.bssid) = true
  · rw [if_pos h, h]
  · rw [if_neg h]
    simp only [Bool.not_eq_true] at h
    rw [h]

/-- C7: the connect request is pinned to a station identifier exactly
when the stored BSSID has some non-zero byte and agrees with the scanned
BSSID on all 6 bytes; an unpinned request carries `bssid_set = false`
and a zeroed BSSID, and a pinned request carries the scanned BSSID. -/
theorem claim_C7_bssid_pin_iff_exact_match (e : NetworkEntry) (ap : ApRecord) :
    ((configure_bssid e ap).bssid_set = true ↔
      ((∃ k < 6, e.bssid.getD k 0 ≠ 0) ∧ ∀ k < 6, e.bssid.getD k 0 = ap.bssid.getD k 0)) ∧
    ((configure_bssid e ap).bssid_set = false →
      (configure_bssid e ap).bssid = [0, 0, 0, 0, 0, 0]) ∧
    ((configure_bssid e ap).bssid_set = true → (configure_bssid e ap).bssid = ap.bssid) := by
  refine ⟨?_, ?_, ?_⟩
  · rw [configure_bssid_set_eq, Bool.and_eq_true, has_valid_historical_bssid_iff, bssid6_eq_iff]
  · intro hset
    unfold configure_bssid at hset ⊢
    by_cases h : (has_valid_historical_bssid e.bssid && bssid6_eq e.bssid ap.bssid) = true
    · rw [if_pos h] at hset
      exact absurd hset (by simp)
    · rw [if_neg h]
  · intro hset
    unfold configure_bssid at hset ⊢
    by_cases h : (has_valid_historical_bssid e.bssid && bssid6_eq e.bssid ap.bssid) = true
    · rw [if_pos h]
    · rw [if_neg h] at hset
      exact absurd hset (by simp)

/-- One selection step keeps the matched scan entry above the -85 dBm
floor. -/
theorem auto_connect_step_found_rssi (scans : List ApRecord) (st : BestState) (e : NetworkEntry)
    (h : st.found_network = true → st.best_ap_record.rssi > -85) :
    (auto_connect_step scans st e).found_network = true →
      (auto_connect_step scans st e).best_ap_record.rssi > -85 := by
  unfold auto_connect_step
  by_cases hv : e.is_valid
  · rw [hv]
    simp only [Bool.not_true, Bool.false_eq_true, if_false]
    cases hfv : find_viable_scan scans e.ssid with
    | none => exact h
    | some ap =>
      dsimp only
      by_cases hrep : ap.rssi > st.best_rssi ∨ (ap.rssi = st.best_rssi ∧ e.priority > st.best_network.priority)
      · rw [if_pos hrep]
        intro _
        have hp := List.find?_some hfv
        rw [Bool.and_eq_true] at hp
        exact of_decide_eq_true hp.2
      · rw [if_neg hrep]
        exact h
  · rw [Bool.not_eq_true] at hv
    rw [hv]
    simp only [Bool.not_false, if_true]
    exact h

/-- The whole selection walk keeps the matched scan entry above the
-85 dBm floor. -/
theorem auto_connect_fold_found_rssi (scans : List ApRecord) :
    ∀ (l : List NetworkEntry) (st : BestState),
      (st.found_network = true → st.best_ap_record.rssi > -85) →
      ((l.foldl (auto_connect_step scans) st).found_network = true →
        (l.foldl (auto_connect_step scans) st).best_ap_record.rssi > -85) := by
  intro l
  induction l with
  | nil => intro st h; exact h
  | cons e rest ih =>
    intro st h
    exact ih _ (auto_connect_step_found_rssi scans st e h)

/-- C3: the auto-connect selection never picks a scan-matched record at
or below the -85 dBm floor, and the floor is strict: with a single
remembered network, a scan entry at exactly -85 dBm is rejected while
one at -84 dBm is accepted. -/
theorem claim_C3_signal_floor_strict_at_minus_85 (networks : List NetworkEntry)
    (scans : List ApRecord)
    (hfound : (auto_connect_select networks scans).found_network = true) :
    (auto_connect_select networks scans).best_ap_record.rssi > -85 ∧
    (auto_connect_select c3_nets [c3_ap_85]).found_network = false ∧
    (auto_connect_select c3_nets [c3_ap_84]).found_network = true ∧
    (auto_connect_select c3_nets [c3_ap_84]).best_ap_record = c3_ap_84 := by
  refine ⟨?_, by decide, by decide, by decide⟩
  exact auto_connect_fold_found_rssi scans networks {} (by intro hc; exact absurd hc (by decide)) hfound

/-- Witness for C3 at the concrete one-record table and the -84 dBm scan
entry. -/
theorem claim_C3_witness :
    (auto_connect_select c3_nets [c3_ap_84]).best_ap_record.rssi > -85 ∧
    (auto_connect_select c3_nets [c3_ap_85]).found_network = false ∧
    (auto_connect_select c3_nets [c3_ap_84]).found_network = true ∧
    (auto_connect_select c3_nets [c3_ap_84]).best_ap_record = c3_ap_84 :=
  claim_C3_signal_floor_strict_at_minus_85 c3_nets [c3_ap_84] (by decide)

/-- Reflexivity of the selection-state preorder. -/
theorem bstate_le_refl (s : BestState) : bstate_le s s :=
  ⟨le_refl _, fun _ => le_refl _⟩

/-- Transitivity of the selection-state preorder. -/
theorem bstate_le_trans {s t u : BestState} (h1 : bstate_le s t) (h2 : bstate_le t u) :
    bstate_le s u := by
  obtain ⟨h1r, h1p⟩ := h1
  obtain ⟨h2r, h2p⟩ := h2
  refine ⟨le_trans h1r h2r, ?_⟩
  intro he
  have h3 : s.best_rssi = t.best_rssi := by omega
  have h4 : t.best_rssi = u.best_rssi := by omega
  exact le_trans (h1p h3) (h2p h4)

/-- A selection step either keeps the state or installs a viable
candidate that beat the previous best under the replacement rule. -/
theorem auto_connect_step_cases (scans : List ApRecord) (st : BestState) (e : NetworkEntry) :
    auto_connect_step scans st e = st ∨
    ∃ ap, e.is_valid = true ∧ find_viable_scan scans e.ssid = some ap ∧
      (ap.rssi > st.best_rssi ∨ (ap.rssi = st.best_rssi ∧ e.priority > st.best_network.priority)) ∧
      auto_connect_step scans st e =
        { best_rssi := ap.rssi, found_network := true, best_network := e, best_ap_record := ap } := by
  by_cases hv : e.is_valid
  · cases hfv : find_viable_scan scans e.ssid with
    | none =>
      left
      unfold auto_connect_step
      rw [hv, hfv]
      simp
    | some ap =>
      by_cases hrep : ap.rssi > st.best_rssi ∨
          (ap.rssi = st.best_rssi ∧ e.priority > st.best_network.priority)
      · refine Or.inr ⟨ap, hv, rfl, hrep, ?_⟩
        unfold auto_connect_step
        rw [hv, hfv]
        simp only [Bool.not_true, Bool.false_eq_true, if_false]
        exact if_pos hrep
      · left
        unfold auto_connect_step
        rw [hv, hfv]
        simp only [Bool.not_true, Bool.false_eq_true, if_false]
        exact if_neg hrep
  · left
    unfold auto_connect_step
    rw [Bool.not_eq_true] at hv
    rw [hv]
    simp

/-- A selection step never degrades the state. -/
theorem auto_connect_step_mono (scans : List ApRecord) (st : BestState) (e : NetworkEntry) :
    bstate_le st (auto_connect_step scans st e) := by
  rcases auto_connect_step_cases scans st e with h | ⟨ap, hv, hfv, hrep, heq⟩
  · rw [h]
    exact bstate_le_refl st
  · rw [heq]
    unfold bstate_le
    dsimp only
    rcases hrep with h1 | ⟨h1, h2⟩
    · exact ⟨le_of_lt h1, fun he => by omega⟩
    · exact ⟨le_of_eq h1.symm, fun _ => le_of_lt h2⟩

/-- The whole selection walk never degrades the state. -/
theorem auto_connect_fold_mono (scans : List ApRecord) :
    ∀ (l : List NetworkEntry) (st : BestState),
      bstate_le st (l.foldl (auto_connect_step scans) st) := by
  intro l
  induction l with
  | nil => intro st; exact bstate_le_refl st
  | cons e rest ih =>
    intro st
    rw [List.foldl_cons]
    exact bstate_le_trans (auto_connect_step_mono scans st e) (ih (auto_connect_step scans st e))

/-- Domination survives any improvement of the state. -/
theorem dominates_mono {st t : BestState} {e : NetworkEntry} {ap : ApRecord}
    (hd : Dominates st e ap) (hle : bstate_le st t) : Dominates t e ap := by
  obtain ⟨hd1, hd2⟩ := hd
  obtain ⟨hl1, hl2⟩ := hle
  refine ⟨le_trans hd1 hl1, ?_⟩
  intro he
  have h3 : ap.rssi = st.best_rssi := by omega
  exact le_trans (hd2 h3) (hl2 (by omega))

/-- After its own step, a candidate is beaten by the state. -/
theorem auto_connect_step_dominates_self (scans : List ApRecord) (st : BestState)
    (e : NetworkEntry) (ap : ApRecord) (hv : e.is_valid = true)
    (hfv : find_viable_scan scans e.ssid = some ap) :
    Dominates (auto_connect_step scans st e) e ap := by
  unfold auto_connect_step
  rw [hv]
  simp only [Bool.not_true, Bool.false_eq_true, if_false]
  rw [hfv]
  dsimp only
  by_cases hrep : ap.rssi > st.best_rssi ∨
      (ap.rssi = st.best_rssi ∧ e.priority > st.best_network.priority)
  · rw [if_pos hrep]
    exact ⟨le_refl _, fun _ => le_refl _⟩
  · rw [if_neg hrep]
    push_neg at hrep
    exact ⟨hrep.1, fun he => hrep.2 he⟩

/-- Every candidate seen by the walk is beaten by the final state. -/
theorem auto_connect_fold_dominates (scans : List ApRecord) :
    ∀ (l : List NetworkEntry) (st : BestState) (e : NetworkEntry) (ap : ApRecord),
      e ∈ l → e.is_valid = true → find_viable_scan scans e.ssid = some ap →
      Dominates (l.foldl (auto_connect_step scans) st) e ap := by
  intro l
  induction l with
  | nil =>
    intro st e ap hmem
    exact absurd hmem (List.not_mem_nil e)
  | cons f rest ih =>
    intro st e ap hmem hv hfv
    rw [List.foldl_cons]
    rcases List.mem_cons.mp hmem with he | he
    · subst he
      exact dominates_mono (auto_connect_step_dominates_self scans st e ap hv hfv)
        (auto_connect_fold_mono scans rest _)
    · exact ih _ e ap he hv hfv

/-- The final state is either the initial one or carries verbatim one
candidate encountered during the walk. -/
theorem auto_connect_fold_candidate (scans : List ApRecord) :
    ∀ (l : List NetworkEntry) (st : BestState),
      l.foldl (auto_connect_step scans) st = st ∨
      ∃ e ap, e ∈ l ∧ e.is_valid = true ∧ find_viable_scan scans e.ssid = some ap ∧
        l.foldl (auto_connect_step scans) st =
          { best_rssi := ap.rssi, found_network := true, best_network := e, best_ap_record := ap } := by
  intro l
  induction l with
  | nil => intro st; exact Or.inl rfl
  | cons f rest ih =>
    intro st
    rw [List.foldl_cons]
    rcases auto_connect_step_cases scans st f with hstep | ⟨ap, hv, hfv, _, hstep⟩
    · rw [hstep]
      rcases ih st with h | ⟨e, ap, hmem, hv, hfv, heq⟩
      · exact Or.inl h
      · exact Or.inr ⟨e, ap, List.mem_cons_of_mem f hmem, hv, hfv, heq⟩
    · rw [hstep]
      rcases ih ⟨ap.rssi, true, f, ap⟩ with h | ⟨e, ap2, hmem, hv2, hfv2, heq⟩
      · exact Or.inr ⟨f, ap, List.mem_cons_self f rest, hv, hfv, h⟩
      · exact Or.inr ⟨e, ap2, List.mem_cons_of_mem f hmem, hv2, hfv2, heq⟩

/-- C2: when the selection walk of `wifi_history_auto_connect` reports a
network, the reported (record, scan entry) pair is one of the considered
candidates, the reported best signal is that scan entry's signal, and
the pair beats every considered candidate: no candidate has a strictly
stronger signal, and no equal-signal candidate has a strictly higher
stored priority — the walk tracks the overall best rather than stopping
at the first viable hit. -/
theorem claim_C2_selection_tracks_overall_best (networks : List NetworkEntry)
    (scans : List ApRecord)
    (hfound : (auto_connect_select networks scans).found_network = true) :
    SelectionCandidate networks scans (auto_connect_select networks scans).best_network
      (auto_connect_select networks scans).best_ap_record ∧
    (auto_connect_select networks scans).best_rssi =
      (auto_connect_select networks scans).best_ap_record.rssi ∧
    ∀ e ap, SelectionCandidate networks scans e ap →
      Dominates (auto_connect_select networks scans) e ap := by
  unfold auto_connect_select at hfound ⊢
  rcases auto_connect_fold_candidate scans networks {} with h | ⟨e, ap, hmem, hv, hfv, heq⟩
  · rw [h] at hfound
    exact absurd hfound (by decide)
  · rw [heq]
    refine ⟨⟨hmem, hv, hfv⟩, rfl, ?_⟩
    intro e2 ap2 h2
    have hdom := auto_connect_fold_dominates scans networks {} e2 ap2 h2.1 h2.2.1 h2.2.2
    rwa [heq] at hdom

/-- Witness for C2 at the concrete one-record table and one-entry scan
list. -/
theorem claim_C2_witness :
    SelectionCandidate c3_nets [c3_ap_84]
      (auto_connect_select c3_nets [c3_ap_84]).best_network
      (auto_connect_select c3_nets [c3_ap_84]).best_ap_record ∧
    (auto_connect_select c3_nets [c3_ap_84]).best_rssi =
      (auto_connect_select c3_nets [c3_ap_84]).best_ap_record.rssi ∧
    Dominates (auto_connect_select c3_nets [c3_ap_84]) c3_record c3_ap_84 :=
  ⟨(claim_C2_selection_tracks_overall_best c3_nets [c3_ap_84] (by decide)).1,
   (claim_C2_selection_tracks_overall_best c3_nets [c3_ap_84] (by decide)).2.1,
   (claim_C2_selection_tracks_overall_best c3_nets [c3_ap_84] (by decide)).2.2 c3_record c3_ap_84
     ⟨by decide, by decide, by decide⟩⟩

/-- Unfolding of the valid-name list over a cons cell. -/
theorem valid_ssids_cons (e : NetworkEntry) (l : List NetworkEntry) :
    valid_ssids (e :: l) =
      if e.is_valid = true then e.ssid :: valid_ssids l else valid_ssids l := by
  unfold valid_ssids
  by_cases h : e.is_valid = true
  · simp [List.filter_cons, h]
  · simp [List.filter_cons, h]

/-- Membership in the valid-name list. -/
theorem mem_valid_ssids {l : List NetworkEntry} {x : String} :
    x ∈ valid_ssids l ↔ ∃ e, e ∈ l ∧ e.is_valid = true ∧ e.ssid = x := by
  unfold valid_ssids
  simp only [List.mem_map, List.mem_filter]
  constructor
  · rintro ⟨e, ⟨hm, hv⟩, hs⟩
    exact ⟨e, hm, hv, hs⟩
  · rintro ⟨e, hm, hv, hs⟩
    exact ⟨e, ⟨hm, hv⟩, hs⟩

/-- A name in the valid-name tail stays valid after adding a head. -/
theorem mem_valid_ssids_cons_of_mem (f : NetworkEntry) {rest : List NetworkEntry} {x : String}
    (h : x ∈ valid_ssids rest) : x ∈ valid_ssids (f :: rest) := by
  rw [valid_ssids_cons]
  by_cases hf : f.is_valid = true
  · rw [if_pos hf]
    exact List.mem_cons_of_mem _ h
  · rwa [if_neg hf]

/-- Overwriting a slot with a record of the same name and validity keeps
the valid-name list unchanged. -/
theorem valid_ssids_set_same :
    ∀ (l : List NetworkEntry) (i : Nat) (a b : NetworkEntry),
      l.get? i = some a → b.is_valid = a.is_valid → b.ssid = a.ssid →
      valid_ssids (l.set i b) = valid_ssids l := by
  intro l
  induction l with
  | nil =>
    intro i a b hget
    cases hget
  | cons f rest ih =>
    intro i a b hget hval hname
    cases i with
    | zero =>
      rw [List.get?_cons_zero, Option.some.injEq] at hget
      subst hget
      rw [List.set_cons_zero, valid_ssids_cons, valid_ssids_cons, hval, hname]
    | succ i =>
      rw [List.get?_cons_succ] at hget
      rw [List.set_cons_succ, valid_ssids_cons, valid_ssids_cons, ih i a b hget hval hname]

/-- A name valid after overwriting slot i was already valid or is the
new record's name. -/
theorem mem_valid_ssids_set :
    ∀ (l : List NetworkEntry) (i : Nat) (b : NetworkEntry) (x : String),
      x ∈ valid_ssids (l.set i b) → x ∈ valid_ssids l ∨ x = b.ssid := by
  intro l
  induction l with
  | nil =>
    intro i b x hx
    rw [List.set_nil] at hx
    exact Or.inl hx
  | cons f rest ih =>
    intro i b x hx
    cases i with
    | zero =>
      rw [List.set_cons_zero, valid_ssids_cons] at hx
      by_cases hb : b.is_valid = true
      · rw [if_pos hb, List.mem_cons] at hx
        rcases hx with hx | hx
        · exact Or.inr hx
        · exact Or.inl (mem_valid_ssids_cons_of_mem f hx)
      · rw [if_neg hb] at hx
        exact Or.inl (mem_valid_ssids_cons_of_mem f hx)
    | succ i =>
      rw [List.set_cons_succ, valid_ssids_cons] at hx
      by_cases hf : f.is_valid = true
      · rw [if_pos hf, List.mem_cons] at hx
        rcases hx with hx | hx
        · subst hx
          rw [valid_ssids_cons, if_pos hf]
          exact Or.inl (List.mem_cons_self _ _)
        · rcases ih i b x hx with hx2 | hx2
          · exact Or.inl (mem_valid_ssids_cons_of_mem f hx2)
          · exact Or.inr hx2
      · rw [if_neg hf] at hx
        rcases ih i b x hx with hx2 | hx2
        · exact Or.inl (mem_valid_ssids_cons_of_mem f hx2)
        · exact Or.inr hx2

/-- The tail of a unique-name table has unique names. -/
theorem unique_valid_names_of_cons {f : NetworkEntry} {rest : List NetworkEntry}
    (h : UniqueValidNames (f :: rest)) : UniqueValidNames rest := by
  unfold UniqueValidNames at h ⊢
  rw [valid_ssids_cons] at h
  by_cases hf : f.is_valid = true
  · rw [if_pos hf] at h
    exact h.of_cons
  · rwa [if_neg hf] at h

/-- Overwriting any slot with a valid record whose name no valid record
carries keeps the valid names unique. -/
theorem unique_valid_names_set_fresh :
    ∀ (l : List NetworkEntry) (i : Nat) (b : NetworkEntry),
      UniqueValidNames l → (∀ e, e ∈ l → e.is_valid = true → e.ssid ≠ b.ssid) →
      UniqueValidNames (l.set i b) := by
  intro l
  induction l with
  | nil =>
    intro i b hu _
    rw [List.set_nil]
    exact hu
  | cons f rest ih =>
    intro i b hu hfresh
    cases i with
    | zero =>
      rw [List.set_cons_zero]
      unfold UniqueValidNames
      rw [valid_ssids_cons]
      have hrest : (valid_ssids rest).Nodup := unique_valid_names_of_cons hu
      by_cases hb : b.is_valid = true
      · rw [if_pos hb, List.nodup_cons]
        refine ⟨?_, hrest⟩
        intro hmem
        obtain ⟨e, hm, hv, hs⟩ := mem_valid_ssids.mp hmem
        exact hfresh e (List.mem_cons_of_mem f hm) hv hs
      · rw [if_neg hb]
        exact hrest
    | succ i =>
      rw [List.set_cons_succ]
      unfold UniqueValidNames
      rw [valid_ssids_cons]
      have htail : UniqueValidNames (rest.set i b) :=
        ih i b (unique_valid_names_of_cons hu)
          (fun e hm hv => hfresh e (List.mem_cons_of_mem f hm) hv)
      by_cases hf : f.is_valid = true
      · rw [if_pos hf, List.nodup_cons]
        refine ⟨?_, htail⟩
        intro hmem
        rcases mem_valid_ssids_set rest i b f.ssid hmem with hx | hx
        · have := hu
          unfold UniqueValidNames at this
          rw [valid_ssids_cons, if_pos hf, List.nodup_cons] at this
          exact this.1 hx
        · exact hfresh f (List.mem_cons_self f rest) hf hx
      · rw [if_neg hf]
        exact htail

/-- A successful slot search yields an in-range slot satisfying the
predicate. -/
theorem find_index_some {p : NetworkEntry → Bool} :
    ∀ {l : List NetworkEntry} {i : Nat}, find_index p l = some i →
      ∃ e, l.get? i = some e ∧ p e = true := by
  intro l
  induction l with
  | nil =>
    intro i h
    cases h
  | cons f rest ih =>
    intro i h
    unfold find_index at h
    by_cases hp : p f = true
    · rw [if_pos hp, Option.some.injEq] at h
      subst h
      exact ⟨f, rfl, hp⟩
    · rw [if_neg hp] at h
      cases hfi : find_index p rest with
      | none =>
        rw [hfi] at h
        cases h
      | some j =>
        rw [hfi] at h
        rw [Option.map_some', Option.some.injEq] at h
        subst h
        obtain ⟨e, hget, hpe⟩ := ih hfi
        exact ⟨e, by rw [List.get?_cons_succ]; exact hget, hpe⟩

/-- A failed slot search means no slot satisfies the predicate. -/
theorem find_index_none {p : NetworkEntry → Bool} :
    ∀ {l : List NetworkEntry}, find_index p l = none → ∀ e ∈ l, p e = false := by
  intro l
  induction l with
  | nil =>
    intro _ e he
    cases he
  | cons f rest ih =>
    intro h e he
    unfold find_index at h
    by_cases hp : p f = true
    · rw [if_pos hp] at h
      cases h
    · rw [if_neg hp] at h
      rcases List.mem_cons.mp he with he | he
      · subst he
        exact Bool.not_eq_true _ ▸ Bool.of_not_eq_true hp
      · cases hfi : find_index p rest with
        | none => exact ih hfi e he
        | some j =>
          rw [hfi, Option.map_some'] at h
          cases h

/-- Reduction of `modify_at` when the slot exists. -/
theorem modify_at_eq_set {l : List NetworkEntry} {i : Nat} {e : NetworkEntry}
    (f : NetworkEntry → NetworkEntry) (hget : l.get? i = some e) :
    modify_at l i f = l.set i (f e) := by
  unfold modify_at
  rw [hget]

/-- C4: an upsert never creates a second valid record with an existing
name: uniqueness of valid names is preserved by every
`wifi_history_add_network` call, and when the name is already present
the call either updates that record's slot in place or (on an argument
check failure) leaves the table untouched. -/
theorem claim_C4_upsert_keeps_valid_names_unique (ts : Nat) (ssid password : Option String)
    (bssid : Option (List Nat)) (channel authmode : Nat) (rssi : Int) (h : wifi_history_t)
    (hu : UniqueValidNames h.networks) :
    UniqueValidNames
      (wifi_history_add_network ts ssid password bssid channel authmode rssi h).2.networks ∧
    ∀ s i, ssid = some s → find_network_index h.networks s = some i →
      ((wifi_history_add_network ts ssid password bssid channel authmode rssi h).2.networks =
          modify_at h.networks i
            (update_existing_entry ts password bssid channel authmode rssi) ∨
        (wifi_history_add_network ts ssid password bssid channel authmode rssi h).2.networks =
          h.networks) := by
  cases ssid with
  | none =>
    refine ⟨hu, ?_⟩
    intro s i hs
    cases hs
  | some s =>
    unfold wifi_history_add_network
    dsimp only
    by_cases h0 : s.length = 0
    · rw [if_pos h0]
      exact ⟨hu, fun s' i hs hf => Or.inr rfl⟩
    · rw [if_neg h0]
      by_cases h32 : WIFI_HISTORY_SSID_MAX_LEN ≤ s.length
      · rw [if_pos h32]
        exact ⟨hu, fun s' i hs hf => Or.inr rfl⟩
      · rw [if_neg h32]
        by_cases hpw : password_too_long password = true
        · rw [if_pos hpw]
          exact ⟨hu, fun s' i hs hf => Or.inr rfl⟩
        · rw [if_neg hpw]
          unfold find_network_index
          cases hfind : find_index (fun e => e.is_valid && e.ssid == s) h.networks with
          | some i =>
            obtain ⟨e, hget, hpe⟩ := find_index_some hfind
            constructor
            · dsimp only
              rw [modify_at_eq_set _ hget]
              unfold UniqueValidNames
              rw [valid_ssids_set_same h.networks i e
                (update_existing_entry ts password bssid channel authmode rssi e) hget rfl rfl]
              exact hu
            · intro s' i' hs' hf'
              rw [Option.some.injEq] at hs'
              subst hs'
              rw [hfind, Option.some.injEq] at hf'
              subst hf'
              exact Or.inl rfl
          | none =>
            have hfresh : ∀ b : NetworkEntry, b.ssid = s →
                ∀ e, e ∈ h.networks → e.is_valid = true → e.ssid ≠ b.ssid := by
              intro b hb e hm hv
              rw [hb]
              have hpe := find_index_none hfind e hm
              rw [hv, Bool.true_and] at hpe
              exact beq_eq_false_iff_ne.mp hpe
            have hnotfound : ∀ s' i', some s = some s' →
                find_index (fun e => e.is_valid && e.ssid == s') h.networks = some i' →
                False := by
              intro s' i' hs' hf'
              rw [Option.some.injEq] at hs'
              subst hs'
              rw [hfind] at hf'
              cases hf'
            cases hempty : find_empty_slot h.networks with
            | some i =>
              refine ⟨?_, fun s' i' hs' hf' => absurd (hnotfound s' i' hs' hf') not_false⟩
              dsimp only
              exact unique_valid_names_set_fresh h.networks i
                (new_entry ts s password bssid channel authmode rssi) hu
                (hfresh (new_entry ts s password bssid channel authmode rssi) rfl)
            | none =>
              refine ⟨?_, fun s' i' hs' hf' => absurd (hnotfound s' i' hs' hf') not_false⟩
              dsimp only
              exact unique_valid_names_set_fresh h.networks
                (find_lowest_priority_slot h.networks)
                (new_entry ts s password bssid channel authmode rssi) hu
                (hfresh (new_entry ts s password bssid channel authmode rssi) rfl)

/-- Witness for C4: re-adding the name "home" to the concrete table that
already remembers it keeps the valid names unique and updates slot 0 in
place. -/
theorem claim_C4_witness :
    UniqueValidNames
      (wifi_history_add_network 5 (some "home") (some "pw2") none 6 3 (-40) c4_table).2.networks ∧
    ((wifi_history_add_network 5 (some "home") (some "pw2") none 6 3 (-40) c4_table).2.networks =
        modify_at c4_table.networks 0 (update_existing_entry 5 (some "pw2") none 6 3 (-40)) ∨
      (wifi_history_add_network 5 (some "home") (some "pw2") none 6 3 (-40) c4_table).2.networks =
        c4_table.networks) :=
  ⟨(claim_C4_upsert_keeps_valid_names_unique 5 (some "home") (some "pw2") none 6 3 (-40)
      c4_table (by decide)).1,
   (claim_C4_upsert_keeps_valid_names_unique 5 (some "home") (some "pw2") none 6 3 (-40)
      c4_table (by decide)).2 "home" 0 rfl (by decide)⟩

/-- Transitivity of the (priority, last_connected) order. -/
theorem pair_le_trans {p q r : Nat × Nat} (h1 : pair_le p q) (h2 : pair_le q r) :
    pair_le p r := by
  unfold pair_le at *
  omega

/-- A failing predicate on every slot means the search returns -1. -/
theorem find_index_eq_none {p : NetworkEntry → Bool} :
    ∀ {l : List NetworkEntry}, (∀ e ∈ l, p e = false) → find_index p l = none := by
  intro l
  induction l with
  | nil => intro _; rfl
  | cons f rest ih =>
    intro h
    unfold find_index
    rw [if_neg (by rw [h f (List.mem_cons_self f rest)]; exact Bool.false_ne_true),
      ih (fun e he => h e (List.mem_cons_of_mem f he))]
    rfl

/-- One lowest-slot step keeps the accumulator well formed. -/
theorem lowest_step_wf (networks : List NetworkEntry) (acc : Nat × Nat × Nat) (i : Nat)
    (h : LowestAcc networks acc) : LowestAcc networks (lowest_slot_step networks acc i) := by
  unfold lowest_slot_step
  cases hget : networks.get? i with
  | none => exact h
  | some e =>
    dsimp only
    by_cases hv : e.is_valid
    · rw [hv]
      simp only [Bool.not_true, Bool.false_eq_true, if_false]
      by_cases hrep : e.priority < acc.2.1 ∨ (e.priority = acc.2.1 ∧ e.last_connected < acc.2.2)
      · rw [if_pos hrep]
        exact ⟨e, hget, rfl, rfl⟩
      · rw [if_neg hrep]
        exact h
    · rw [Bool.not_eq_true] at hv
      rw [hv]
      simp only [Bool.not_false, if_true]
      exact h

/-- One lowest-slot step never worsens the tracked (priority, time). -/
theorem lowest_step_le (networks : List NetworkEntry) (acc : Nat × Nat × Nat) (i : Nat) :
    pair_le (lowest_slot_step networks acc i).2 acc.2 := by
  unfold lowest_slot_step
  cases hget : networks.get? i with
  | none => exact Or.inr ⟨rfl, le_refl _⟩
  | some e =>
    dsimp only
    by_cases hv : e.is_valid
    · rw [hv]
      simp only [Bool.not_true, Bool.false_eq_true, if_false]
      by_cases hrep : e.priority < acc.2.1 ∨ (e.priority = acc.2.1 ∧ e.last_connected < acc.2.2)
      · rw [if_pos hrep]
        unfold pair_le
        dsimp only
        omega
      · rw [if_neg hrep]
        exact Or.inr ⟨rfl, le_refl _⟩
    · rw [Bool.not_eq_true] at hv
      rw [hv]
      simp only [Bool.not_false, if_true]
      exact Or.inr ⟨rfl, le_refl _⟩

/-- After its own step, a valid slot is beaten by the accumulator. -/
theorem lowest_step_dominates (networks : List NetworkEntry) (acc : Nat × Nat × Nat) (i : Nat)
    (e : NetworkEntry) (hget : networks.get? i = some e) (hv : e.is_valid = true) :
    pair_le (lowest_slot_step networks acc i).2 (e.priority, e.last_connected) := by
  unfold lowest_slot_step
  rw [hget]
  dsimp only
  rw [hv]
  simp only [Bool.not_true, Bool.false_eq_true, if_false]
  by_cases hrep : e.priority < acc.2.1 ∨ (e.priority = acc.2.1 ∧ e.last_connected < acc.2.2)
  · rw [if_pos hrep]
    exact Or.inr ⟨rfl, le_refl _⟩
  · rw [if_neg hrep]
    unfold pair_le
    push_neg at hrep
    dsimp only
    omega

/-- The lowest-slot scan yields a well-formed accumulator that beats the
starting accumulator and every valid slot it visited. -/
theorem lowest_fold (networks : List NetworkEntry) :
    ∀ (idxs : List Nat) (acc : Nat × Nat × Nat), LowestAcc networks acc →
      LowestAcc networks (idxs.foldl (lowest_slot_step networks) acc) ∧
      pair_le (idxs.foldl (lowest_slot_step networks) acc).2 acc.2 ∧
      ∀ i ∈ idxs, ∀ e, networks.get? i = some e → e.is_valid = true →
        pair_le (idxs.foldl (lowest_slot_step networks) acc).2
          (e.priority, e.last_connected) := by
  intro idxs
  induction idxs with
  | nil =>
    intro acc hacc
    refine ⟨hacc, Or.inr ⟨rfl, le_refl _⟩, ?_⟩
    intro i hi
    cases hi
  | cons j rest ih =>
    intro acc hacc
    rw [List.foldl_cons]
    obtain ⟨hwf, hle, hdom⟩ := ih (lowest_slot_step networks acc j)
      (lowest_step_wf networks acc j hacc)
    refine ⟨hwf, pair_le_trans hle (lowest_step_le networks acc j), ?_⟩
    intro i hi e hget hv
    rcases List.mem_cons.mp hi with hij | hij
    · subst hij
      exact pair_le_trans hle (lowest_step_dominates networks acc i e hget hv)
    · exact hdom i hij e hget hv

/-- C5: on a full table (all 10 slots valid) the slot picked for
eviction holds a valid record whose priority is minimal, and whose
`last_connected` is minimal among the records sharing that minimal
priority; moreover no free slot exists, so `wifi_history_add_network`
takes exactly this eviction path for a fresh name. -/
theorem claim_C5_eviction_picks_lowest_priority_then_oldest (networks : List NetworkEntry)
    (hlen : networks.length = WIFI_HISTORY_MAX_NETWORKS)
    (hall : ∀ e ∈ networks, e.is_valid = true) :
    ∃ er, networks.get? (find_lowest_priority_slot networks) = some er ∧
      er.is_valid = true ∧ find_empty_slot networks = none ∧
      ∀ i e, networks.get? i = some e →
        er.priority ≤ e.priority ∧
          (er.priority = e.priority → er.last_connected ≤ e.last_connected) := by
  cases hg0 : networks.get? 0 with
  | none =>
    rw [List.get?_eq_none] at hg0
    rw [hlen] at hg0
    exact absurd hg0 (by unfold WIFI_HISTORY_MAX_NETWORKS; omega)
  | some e0 =>
    have hinit : LowestAcc networks (0, e0.priority, e0.last_connected) := ⟨e0, hg0, rfl, rfl⟩
    obtain ⟨⟨er, hgetr, hp, hlc⟩, hle0, hdom⟩ :=
      lowest_fold networks ((List.range (WIFI_HISTORY_MAX_NETWORKS - 1)).map (· + 1))
        (0, e0.priority, e0.last_connected) hinit
    have hresult : find_lowest_priority_slot networks =
        (((List.range (WIFI_HISTORY_MAX_NETWORKS - 1)).map (· + 1)).foldl
          (lowest_slot_step networks) (0, e0.priority, e0.last_connected)).1 := by
      unfold find_lowest_priority_slot
      rw [hg0]
    refine ⟨er, by rw [hresult]; exact hgetr, hall er (List.get?_mem hgetr),
      find_index_eq_none (fun e he => by rw [hall e he]; rfl), ?_⟩
    intro i e hget
    have hpair : pair_le (er.priority, er.last_connected) (e.priority, e.last_connected) := by
      rw [← hp, ← hlc]
      cases i with
      | zero =>
        rw [hg0, Option.some.injEq] at hget
        subst hget
        exact hle0
      | succ i =>
        have hi : i + 1 ∈ (List.range (WIFI_HISTORY_MAX_NETWORKS - 1)).map (· + 1) := by
          have hlt : i + 1 < networks.length := (List.get?_eq_some.mp hget).1
          rw [hlen] at hlt
          unfold WIFI_HISTORY_MAX_NETWORKS at hlt ⊢
          simp only [List.mem_map, List.mem_range]
          exact ⟨i, by omega, rfl⟩
        exact hdom (i + 1) hi e hget (hall e (List.get?_mem hget))
    unfold pair_le at hpair
    constructor
    · omega
    · intro hpe
      omega

/-- Witness for C5: in the full table with priorities 100..109 the
eviction slot holds the priority-100 record. -/
theorem claim_C5_witness :
    ∃ er, c5_nets.get? (find_lowest_priority_slot c5_nets) = some er ∧
      er.is_valid = true ∧ find_empty_slot c5_nets = none ∧
      ∀ i e, c5_nets.get? i = some e →
        er.priority ≤ e.priority ∧
          (er.priority = e.priority → er.last_connected ≤ e.last_connected) :=
  claim_C5_eviction_picks_lowest_priority_then_oldest c5_nets (by decide) (by decide)

/-- Unfolding of the valid-record count over a cons cell. -/
theorem count_valid_cons (e : NetworkEntry) (l : List NetworkEntry) :
    count_valid (e :: l) = (if e.is_valid = true then 1 else 0) + count_valid l := by
  unfold count_valid
  by_cases h : e.is_valid = true
  · simp [List.filter_cons, h]
    omega
  · simp [List.filter_cons, h]

/-- Effect of overwriting one slot on the valid-record count, in
subtraction-free form. -/
theorem count_valid_set :
    ∀ (l : List NetworkEntry) (i : Nat) (a b : NetworkEntry), l.get? i = some a →
      count_valid (l.set i b) + (if a.is_valid = true then 1 else 0) =
        count_valid l + (if b.is_valid = true then 1 else 0) := by
  intro l
  induction l with
  | nil =>
    intro i a b hget
    cases hget
  | cons f rest ih =>
    intro i a b hget
    cases i with
    | zero =>
      rw [List.get?_cons_zero, Option.some.injEq] at hget
      subst hget
      rw [List.set_cons_zero, count_valid_cons, count_valid_cons]
      omega
    | succ i =>
      rw [List.get?_cons_succ] at hget
      rw [List.set_cons_succ, count_valid_cons, count_valid_cons]
      have := ih i a b hget
      omega

/-- The valid-record count never exceeds the slot count. -/
theorem count_valid_le_length (l : List NetworkEntry) : count_valid l ≤ l.length :=
  List.length_filter_le _ l

/-- A table holding a valid record has a positive valid-record count. -/
theorem count_valid_pos_of_valid {l : List NetworkEntry} {i : Nat} {e : NetworkEntry}
    (hget : l.get? i = some e) (hv : e.is_valid = true) : 1 ≤ count_valid l := by
  have hm : e ∈ l.filter (fun x => x.is_valid) :=
    List.mem_filter.mpr ⟨List.get?_mem hget, hv⟩
  exact List.length_pos_of_mem hm

/-- An all-tombstone table has a zero valid-record count. -/
theorem count_valid_replicate_zero (n : Nat) :
    count_valid (List.replicate n ({} : NetworkEntry)) = 0 := by
  induction n with
  | zero => rfl
  | succ n ih =>
    rw [List.replicate_succ, count_valid_cons, ih]
    rfl

/-- The table obtained when a full table (no empty slot) picks its
eviction slot holds a record there. -/
theorem lowest_slot_get_of_full {networks : List NetworkEntry}
    (hlen : networks.length = WIFI_HISTORY_MAX_NETWORKS) :
    ∃ er, networks.get? (find_lowest_priority_slot networks) = some er := by
  cases hg0 : networks.get? 0 with
  | none =>
    rw [List.get?_eq_none] at hg0
    rw [hlen] at hg0
    exact absurd hg0 (by unfold WIFI_HISTORY_MAX_NETWORKS; omega)
  | some e0 =>
    obtain ⟨⟨er, hgetr, _, _⟩, _, _⟩ :=
      lowest_fold networks ((List.range (WIFI_HISTORY_MAX_NETWORKS - 1)).map (· + 1))
        (0, e0.priority, e0.last_connected) ⟨e0, hg0, rfl, rfl⟩
    refine ⟨er, ?_⟩
    unfold find_lowest_priority_slot
    rw [hg0]
    exact hgetr

/-- Every in-memory mutation preserves the count consistency. -/
theorem apply_op_invariant (h : wifi_history_t) (op : HistoryOp)
    (hinv : CountInvariant h) : CountInvariant (apply_op h op) := by
  obtain ⟨hlen, hcount⟩ := hinv
  cases op with
  | clear =>
    unfold apply_op wifi_history_clear_all CountInvariant
    dsimp only
    rw [List.length_replicate, count_valid_replicate_zero]
    exact ⟨rfl, rfl⟩
  | remove ssid =>
    unfold apply_op wifi_history_remove_network
    cases ssid with
    | none => exact ⟨hlen, hcount⟩
    | some s =>
      dsimp only
      unfold find_network_index
      cases hfind : find_index (fun e => e.is_valid && e.ssid == s) h.networks with
      | none => exact ⟨hlen, hcount⟩
      | some i =>
        obtain ⟨e, hget, hpe⟩ := find_index_some hfind
        rw [Bool.and_eq_true] at hpe
        unfold CountInvariant
        dsimp only
        rw [List.length_set]
        have hset := count_valid_set h.networks i e {} hget
        rw [if_pos hpe.1, if_neg (by decide)] at hset
        have hpos := count_valid_pos_of_valid hget hpe.1
        have hle := count_valid_le_length h.networks
        rw [hlen] at hle
        unfold WIFI_HISTORY_MAX_NETWORKS at hle
        unfold U8
        exact ⟨hlen, by omega⟩
  | add ts ssid password bssid channel authmode rssi =>
    unfold apply_op wifi_history_add_network
    cases ssid with
    | none => exact ⟨hlen, hcount⟩
    | some s =>
      dsimp only
      by_cases h0 : s.length = 0
      · rw [if_pos h0]
        exact ⟨hlen, hcount⟩
      · rw [if_neg h0]
        by_cases h32 : WIFI_HISTORY_SSID_MAX_LEN ≤ s.length
        · rw [if_pos h32]
          exact ⟨hlen, hcount⟩
        · rw [if_neg h32]
          by_cases hpw : password_too_long password = true
          · rw [if_pos hpw]
            exact ⟨hlen, hcount⟩
          · rw [if_neg hpw]
            unfold find_network_index
            cases hfind : find_index (fun e => e.is_valid && e.ssid == s) h.networks with
            | some i =>
              obtain ⟨e, hget, _⟩ := find_index_some hfind
              unfold CountInvariant
              dsimp only
              rw [modify_at_eq_set _ hget, List.length_set]
              have hset := count_valid_set h.networks i e
                (update_existing_entry ts password bssid channel authmode rssi e) hget
              have hval : (update_existing_entry ts password bssid channel authmode
                  rssi e).is_valid = e.is_valid := rfl
              rw [hval] at hset
              exact ⟨hlen, by omega⟩
            | none =>
              cases hempty : find_empty_slot h.networks with
              | some i =>
                obtain ⟨a, hget, hpa⟩ := find_index_some hempty
                rw [Bool.not_eq_true'] at hpa
                unfold CountInvariant
                dsimp only
                rw [List.length_set]
                have hset := count_valid_set h.networks i a
                  (new_entry ts s password bssid channel authmode rssi) hget
                rw [if_neg (by rw [hpa]; exact Bool.false_ne_true),
                  if_pos (show (new_entry ts s password bssid channel authmode
                    rssi).is_valid = true from rfl)] at hset
                have hle := count_valid_le_length h.networks
                rw [hlen] at hle
                unfold WIFI_HISTORY_MAX_NETWORKS at hle
                unfold U8
                exact ⟨hlen, by omega⟩
              | none =>
                obtain ⟨er, hget⟩ := lowest_slot_get_of_full hlen
                have hvalid : er.is_valid = true := by
                  have := find_index_none hempty er (List.get?_mem hget)
                  rwa [Bool.not_eq_false'] at this
                unfold CountInvariant
                dsimp only
                rw [List.length_set]
                have hset := count_valid_set h.networks (find_lowest_priority_slot h.networks)
                  er (new_entry ts s password bssid channel authmode rssi) hget
                rw [if_pos hvalid,
                  if_pos (show (new_entry ts s password bssid channel authmode
                    rssi).is_valid = true from rfl)] at hset
                exact ⟨hlen, by omega⟩

/-- The count consistency propagates along any mutation sequence. -/
theorem apply_ops_invariant :
    ∀ (ops : List HistoryOp) (h : wifi_history_t),
      CountInvariant h → CountInvariant (apply_ops h ops) := by
  intro ops
  induction ops with
  | nil => intro h hh; exact hh
  | cons op rest ih =>
    intro h hh
    unfold apply_ops at *
    rw [List.foldl_cons]
    exact ih _ (apply_op_invariant h op hh)

/-- C10: starting from the freshly initialized empty table, every
sequence of add/remove/clear mutations keeps `count` equal to the number
of valid records; but a load in which the record blob succeeds and the
`count` key fails sets `count` to 0 regardless of how many valid records
the blob carried. -/
theorem claim_C10_count_matches_valid_records :
    (∀ ops : List HistoryOp, CountInvariant (apply_ops empty_history ops)) ∧
    (∀ (hprev : wifi_history_t) (nets : List NetworkEntry) (tsKey : Option Nat),
      (wifi_history_load (some nets) none tsKey hprev).2.count = 0) := by
  constructor
  · intro ops
    exact apply_ops_invariant ops empty_history (by decide)
  · intro hprev nets tsKey
    rfl

/-- Witness for C7 at a concrete record and scan entry. -/
theorem claim_C7_witness :
    ((configure_bssid c3_record c3_ap_84).bssid_set = true ↔
      ((∃ k < 6, c3_record.bssid.getD k 0 ≠ 0) ∧
        ∀ k < 6, c3_record.bssid.getD k 0 = c3_ap_84.bssid.getD k 0)) ∧
    ((configure_bssid c3_record c3_ap_84).bssid_set = false →
      (configure_bssid c3_record c3_ap_84).bssid = [0, 0, 0, 0, 0, 0]) ∧
    ((configure_bssid c3_record c3_ap_84).bssid_set = true →
      (configure_bssid c3_record c3_ap_84).bssid = c3_ap_84.bssid) :=
  claim_C7_bssid_pin_iff_exact_match c3_record c3_ap_84

/-- Witness for C10 at a concrete mutation sequence and load outcome. -/
theorem claim_C10_witness :
    CountInvariant (apply_ops empty_history [HistoryOp.clear]) ∧
    (wifi_history_load (some c4_table.networks) none (some 7) empty_history).2.count = 0 :=
  ⟨claim_C10_count_matches_valid_records.1 [HistoryOp.clear],
   claim_C10_count_matches_valid_records.2 empty_history c4_table.networks (some 7)⟩

end DataReader
